import Mathlib

/-!
Shallow embedding of the trust-entry registry of `path_certs.go`
(cf-vault-auth-plugin): the `CertEntry` data model and the
`Cert` / `pathCertRead` / `pathCertDelete` / `pathCertWrite` operations,
together with proofs of the specified properties.

Modelling conventions:
* Storage (`logical.Storage`) is an abstract key-value map
  `String → Option CertEntry`.  `StorageEntryJSON` / `DecodeJSON` form a
  round trip, so the serialized blob is modelled by the entry itself, and
  the abstract storage layer itself never fails (storage-layer failures
  are propagated verbatim by the Go code and are outside these claims).
* `time.Duration` values: in the Go code every duration is
  `seconds * time.Second`, and each is only compared with other such
  values or divided back by `time.Second`; both operations are preserved
  by keeping the (possibly negative) number of seconds as an `Int`.
* `parsePEM` (a collaborator of this file, the PEM certificate parser) is
  a parameter of the write operation: a function from the certificate
  text to the ordered list of parsed X.509 records.  A Go `nil`
  `ExtKeyUsage` slice is the empty list: the x509 parser appends to the
  slice only when it recognises a usage, so the slice is `nil` exactly
  when the recognised-usage list is empty.
* `policyutil.ParsePolicies` is a collaborator; its (deterministic)
  output is taken as the `policies` field of the request.
-/

/-- The subset of Go's `x509.ExtKeyUsage` enumeration this code consults,
plus a catch-all for every other usage value. -/
inductive ExtKeyUsage where
  | any : ExtKeyUsage
  | serverAuth : ExtKeyUsage
  | clientAuth : ExtKeyUsage
  | codeSigning : ExtKeyUsage
  | other : Nat → ExtKeyUsage
deriving DecidableEq, Repr

/-- The fields of a parsed `x509.Certificate` consulted by `pathCertWrite`. -/
structure ParsedCert where
  IsCA : Bool
  ExtKeyUsage : List ExtKeyUsage
deriving DecidableEq, Repr

/-- `CertEntry` from `path_certs.go` (TTLs in seconds, see the header). -/
structure CertEntry where
  Name : String
  Certificate : String
  DisplayName : String
  Policies : List String
  TTL : Int
  MaxTTL : Int
deriving DecidableEq, Repr

/-- Abstract key-value storage, `logical.Storage`. -/
def Storage : Type := String → Option CertEntry

/-- `Storage.Get`. -/
def getStorage (s : Storage) (k : String) : Option CertEntry := s k

/-- `Storage.Put` (full replace of the value under the key). -/
def putStorage (s : Storage) (k : String) (v : CertEntry) : Storage :=
  fun k' => if k' = k then some v else s k'

/-- `Storage.Delete`. -/
def deleteStorage (s : Storage) (k : String) : Storage :=
  fun k' => if k' = k then none else s k'

/-- Go's `strings.ToLower`, on the ASCII names these claims use:
lower-case each character. -/
def stringsToLower (s : String) : String := String.mk (s.data.map Char.toLower)

/-- The mount's system view (`b.System()`): the default and maximum lease
TTL ceilings, in seconds. -/
structure SystemView where
  DefaultLeaseTTL : Int
  MaxLeaseTTL : Int
deriving DecidableEq, Repr

/-- A `logical.Response` as used here: the `"error"` datum set by
`logical.ErrorResponse` (absent on success), and the accumulated
`Warnings`. -/
structure LResponse where
  errMsg : Option String
  warnings : List String
deriving DecidableEq, Repr

/-- The zero `logical.Response` (`var resp logical.Response`). -/
def emptyResponse : LResponse := { errMsg := none, warnings := [] }

/-- `logical.ErrorResponse msg`: a fresh response whose only datum is the
error message. -/
def errorResponse (msg : String) : LResponse :=
  { errMsg := some msg, warnings := [] }

/-- `resp.AddWarning w`: append `w` to the warning list. -/
def addWarning (r : LResponse) (w : String) : LResponse :=
  { r with warnings := r.warnings ++ [w] }

/-- The `fmt.Sprintf` text of the ttl-exceeds-default warning
(both numbers already in seconds). -/
def ttlWarning (ttl sysDefault : Int) : String :=
  "Given ttl of " ++ toString ttl ++
    " seconds is greater than current mount/system default of " ++
    toString sysDefault ++ " seconds"

/-- The `fmt.Sprintf` text of the max_ttl-exceeds-max warning. -/
def maxTTLWarning (maxTTL sysMax : Int) : String :=
  "Given max_ttl of " ++ toString maxTTL ++
    " seconds is greater than current mount/system default of " ++
    toString sysMax ++ " seconds"

/-- The request fields of a write: `name`, `certificate`, `display_name`
as given, `policies` as returned by `policyutil.ParsePolicies`, and
`ttl` / `max_ttl` in seconds as parsed by the duration field schema. -/
structure WriteFields where
  name : String
  certificate : String
  displayName : String
  policies : List String
  ttl : Int
  maxTTL : Int
deriving DecidableEq, Repr

/-- The loop over `parsed[0].ExtKeyUsage` looking for
`x509.ExtKeyUsageClientAuth` or `x509.ExtKeyUsageAny`. -/
def hasClientAuthUsage (us : List ExtKeyUsage) : Bool :=
  us.any fun usage => usage == ExtKeyUsage.clientAuth || usage == ExtKeyUsage.any

/-- The key-usage rejection condition of lines 184-196: the certificate
is not a CA, its `ExtKeyUsage` slice is non-`nil` (non-empty, see the
header), and the loop found neither `ClientAuth` nor `Any`. -/
def keyUsageBad (c : ParsedCert) : Bool :=
  !c.IsCA && !c.ExtKeyUsage.isEmpty && !hasClientAuthUsage c.ExtKeyUsage

/-- `(b *backend) Cert`: fetch and decode the entry stored under
`"cert/" + strings.ToLower n`. -/
def Cert (s : Storage) (n : String) : Option CertEntry :=
  getStorage s ("cert/" ++ stringsToLower n)

/-- `pathCertDelete`: delete `"cert/" + strings.ToLower name`; the result
is the (always `nil`, i.e. success) response and the new storage. -/
def pathCertDelete (st : Storage) (name : String) : Option LResponse × Storage :=
  (none, deleteStorage st ("cert/" ++ stringsToLower name))

/-- The `Data` map of a successful read response (`ttl` and `max_ttl`
divided back to seconds, which is the identity in this model). -/
structure ReadData where
  certificate : String
  display_name : String
  policies : List String
  ttl : Int
  max_ttl : Int
deriving DecidableEq, Repr

/-- `pathCertRead`: look the entry up via `Cert` (the name is lowered
once here and once more inside `Cert`, as in the source); absent entries
give the empty `(nil, nil)` result, modelled as `none`. -/
def pathCertRead (st : Storage) (name : String) : Option ReadData :=
  match Cert st (stringsToLower name) with
  | none => none
  | some cert =>
      some { certificate := cert.Certificate
             display_name := cert.DisplayName
             policies := cert.Policies
             ttl := cert.TTL
             max_ttl := cert.MaxTTL }

/-- `pathCertWrite`, line by line: lower the name, warn when `ttl`
exceeds the system default, reject negative `ttl`, warn when `max_ttl`
exceeds the system max, reject negative `max_ttl`, reject
`ttl > max_ttl` when `max_ttl ≠ 0`, default the display name, parse the
PEM, apply the key-usage rule to the first record, store the entry, and
return the warnings (if any) or the empty success. -/
def pathCertWrite (sys : SystemView) (parsePEM : String → List ParsedCert)
    (st : Storage) (f : WriteFields) : Option LResponse × Storage :=
  let name := stringsToLower f.name
  let certificate := f.certificate
  let systemDefaultTTL := sys.DefaultLeaseTTL
  let ttl := f.ttl
  let resp :=
    if ttl > systemDefaultTTL then
      addWarning emptyResponse (ttlWarning ttl systemDefaultTTL)
    else emptyResponse
  if ttl < 0 then (some (errorResponse "ttl cannot be negative"), st) else
  let systemMaxTTL := sys.MaxLeaseTTL
  let maxTTL := f.maxTTL
  let resp :=
    if maxTTL > systemMaxTTL then
      addWarning resp (maxTTLWarning maxTTL systemMaxTTL)
    else resp
  if maxTTL < 0 then (some (errorResponse "max_ttl cannot be negative"), st) else
  if maxTTL ≠ 0 ∧ ttl > maxTTL then
    (some (errorResponse "ttl should be shorter than max_ttl"), st) else
  let displayName := if f.displayName = "" then name else f.displayName
  match parsePEM certificate with
  | [] => (some (errorResponse "failed to parse certificate"), st)
  | c :: _ =>
      if keyUsageBad c then
        (some (errorResponse
          "non-CA certificates should have TLS client authentication set as an extended key usage"), st)
      else
        let certEntry : CertEntry :=
          { Name := name, Certificate := certificate, DisplayName := displayName,
            Policies := f.policies, TTL := ttl, MaxTTL := maxTTL }
        let st' := putStorage st ("cert/" ++ name) certEntry
        if resp.warnings = [] then (none, st') else (some resp, st')

/-- The error message of a write outcome: the `"error"` datum of the
returned response, when there is one. -/
def respErr : Option LResponse → Option String
  | none => none
  | some r => r.errMsg

/-- The `CertEntry` that a successful write persists: lowered name,
verbatim certificate text, defaulted display name, and the request's
policies and TTLs. -/
def storedEntry (f : WriteFields) : CertEntry :=
  { Name := stringsToLower f.name
    Certificate := f.certificate
    DisplayName := if f.displayName = "" then stringsToLower f.name else f.displayName
    Policies := f.policies
    TTL := f.ttl
    MaxTTL := f.maxTTL }

/-- The warnings accumulated by a write before it returns: the
ttl-exceeds-default warning, then the max_ttl-exceeds-max warning, each
present exactly when its ceiling is exceeded. -/
def warningsOf (sys : SystemView) (f : WriteFields) : List String :=
  (if f.ttl > sys.DefaultLeaseTTL then [ttlWarning f.ttl sys.DefaultLeaseTTL] else []) ++
    (if f.maxTTL > sys.MaxLeaseTTL then [maxTTLWarning f.maxTTL sys.MaxLeaseTTL] else [])

/-- The first validation failure a write runs into, in the order the
checks appear in the source, or `none` when every check passes. -/
def firstWriteError (parsePEM : String → List ParsedCert) (f : WriteFields) :
    Option String :=
  if f.ttl < 0 then some "ttl cannot be negative"
  else if f.maxTTL < 0 then some "max_ttl cannot be negative"
  else if f.maxTTL ≠ 0 ∧ f.ttl > f.maxTTL then some "ttl should be shorter than max_ttl"
  else
    match parsePEM f.certificate with
    | [] => some "failed to parse certificate"
    | c :: _ =>
        if keyUsageBad c then
          some "non-CA certificates should have TLS client authentication set as an extended key usage"
        else none

/-- Normal form of `pathCertWrite`: a failing check returns that check's
error response and leaves the storage alone; otherwise the entry is
stored and the accumulated warnings (if any) are returned. -/
theorem pathCertWrite_eq (sys : SystemView) (pem : String → List ParsedCert)
    (st : Storage) (f : WriteFields) :
    pathCertWrite sys pem st f =
      match firstWriteError pem f with
      | some msg => (some (errorResponse msg), st)
      | none =>
          if warningsOf sys f = [] then
            (none, putStorage st ("cert/" ++ stringsToLower f.name) (storedEntry f))
          else
            (some { errMsg := none, warnings := warningsOf sys f },
              putStorage st ("cert/" ++ stringsToLower f.name) (storedEntry f)) := by
  unfold pathCertWrite firstWriteError
  by_cases h1 : f.ttl < 0
  · simp only [if_pos h1]
  · simp only [if_neg h1]
    by_cases h2 : f.maxTTL < 0
    · simp only [if_pos h2]
    · simp only [if_neg h2]
      by_cases h3 : f.maxTTL ≠ 0 ∧ f.ttl > f.maxTTL
      · simp only [if_pos h3]
      · simp only [if_neg h3]
        cases hp : pem f.certificate with
        | nil => simp only [hp]
        | cons c cs =>
            simp only [hp]
            by_cases hk : keyUsageBad c = true
            · simp only [if_pos hk]
            · simp only [if_neg hk]
              unfold warningsOf
              by_cases h4 : f.ttl > sys.DefaultLeaseTTL <;>
                by_cases h5 : f.maxTTL > sys.MaxLeaseTTL <;>
                simp only [h4, h5, if_true, if_false] <;> rfl

/-- `Char.ofNat` of a valid code point maps back to it under `toNat`. -/
theorem charToNat_ofNat_valid {n : Nat} (h : n.isValidChar) :
    (Char.ofNat n).toNat = n := by
  simp [Char.ofNat, dif_pos h, Char.ofNatAux, Char.toNat, UInt32.toNat,
    BitVec.toNat_ofNatLt]

/-- Lower-casing a character twice is the same as doing it once. -/
theorem charToLower_toLower (c : Char) : c.toLower.toLower = c.toLower := by
  unfold Char.toLower
  by_cases h : c.toNat ≥ 65 ∧ c.toNat ≤ 90
  · simp only [if_pos h]
    have hv : Nat.isValidChar (c.toNat + 32) := Or.inl (by omega)
    rw [if_neg]
    rw [charToNat_ofNat_valid hv]
    omega
  · simp only [if_neg h]

/-- Name normalization is idempotent. -/
theorem stringsToLower_idem (s : String) :
    stringsToLower (stringsToLower s) = stringsToLower s := by
  unfold stringsToLower
  simp [List.map_map, Function.comp_def, charToLower_toLower]

/-- Reading back the key just put returns the value just put. -/
theorem putStorage_get_same (s : Storage) (k : String) (v : CertEntry) :
    putStorage s k v k = some v := by
  simp [putStorage]

/-- Putting the same value under the same key twice equals putting it once. -/
theorem putStorage_idem (s : Storage) (k : String) (v : CertEntry) :
    putStorage (putStorage s k v) k v = putStorage s k v := by
  funext k'
  by_cases h : k' = k <;> simp [putStorage, h]

/-- A write whose first failing check is `msg` returns exactly that error
response and does not touch the storage. -/
theorem pathCertWrite_of_err (sys : SystemView) (pem : String → List ParsedCert)
    (st : Storage) (f : WriteFields) (msg : String)
    (h : firstWriteError pem f = some msg) :
    pathCertWrite sys pem st f = (some (errorResponse msg), st) := by
  rw [pathCertWrite_eq, h]

/-- A write all of whose checks pass stores the entry and returns the
accumulated warnings (or the empty success when there are none). -/
theorem pathCertWrite_of_ok (sys : SystemView) (pem : String → List ParsedCert)
    (st : Storage) (f : WriteFields) (h : firstWriteError pem f = none) :
    pathCertWrite sys pem st f =
      if warningsOf sys f = [] then
        (none, putStorage st ("cert/" ++ stringsToLower f.name) (storedEntry f))
      else
        (some { errMsg := none, warnings := warningsOf sys f },
          putStorage st ("cert/" ++ stringsToLower f.name) (storedEntry f)) := by
  rw [pathCertWrite_eq, h]

/-- The error message a write returns is its first failing check. -/
theorem respErr_write (sys : SystemView) (pem : String → List ParsedCert)
    (st : Storage) (f : WriteFields) :
    respErr (pathCertWrite sys pem st f).1 = firstWriteError pem f := by
  cases hfe : firstWriteError pem f with
  | some msg => rw [pathCertWrite_of_err sys pem st f msg hfe]; rfl
  | none =>
      rw [pathCertWrite_of_ok sys pem st f hfe]
      by_cases hw : warningsOf sys f = [] <;> simp [hw, respErr]

/-- The storage a write leaves behind: the entry is stored exactly when
every check passed, and the rest of the storage is never touched. -/
theorem pathCertWrite_state (sys : SystemView) (pem : String → List ParsedCert)
    (st : Storage) (f : WriteFields) :
    (pathCertWrite sys pem st f).2 =
      if firstWriteError pem f = none then
        putStorage st ("cert/" ++ stringsToLower f.name) (storedEntry f)
      else st := by
  cases hfe : firstWriteError pem f with
  | some msg => rw [pathCertWrite_of_err sys pem st f msg hfe]; simp
  | none =>
      rw [pathCertWrite_of_ok sys pem st f hfe]
      by_cases hw : warningsOf sys f = [] <;> simp [hw]

/-- The key-usage rejection condition, in terms of the certificate's
fields: not a CA, a non-empty usage list, and neither `ClientAuth` nor
`Any` among the usages. -/
theorem keyUsageBad_iff (c : ParsedCert) :
    keyUsageBad c = true ↔
      c.IsCA = false ∧ c.ExtKeyUsage ≠ [] ∧
        ∀ u ∈ c.ExtKeyUsage, u ≠ ExtKeyUsage.clientAuth ∧ u ≠ ExtKeyUsage.any := by
  unfold keyUsageBad hasClientAuthUsage
  simp [List.any_eq_true, not_or, List.isEmpty_iff, Bool.not_eq_true']
  exact and_assoc

/-! Concrete fixtures used by the witness theorems. -/

/-- A system view fixture: default lease TTL 100s, max lease TTL 200s. -/
def sysW : SystemView := { DefaultLeaseTTL := 100, MaxLeaseTTL := 200 }

/-- The empty storage fixture. -/
def stEmpty : Storage := fun _ => none

/-- A parsed non-CA certificate whose only extended key usage is server
authentication. -/
def certServerOnly : ParsedCert :=
  { IsCA := false, ExtKeyUsage := [ExtKeyUsage.serverAuth] }

/-- A parser fixture that yields one CA certificate with no usages. -/
def pemCA : String → List ParsedCert :=
  fun _ => [{ IsCA := true, ExtKeyUsage := [] }]

/-- A parser fixture that yields one non-CA server-auth-only certificate. -/
def pemServerOnly : String → List ParsedCert := fun _ => [certServerOnly]

/-- A parser fixture that decodes nothing. -/
def pemNone : String → List ParsedCert := fun _ => []

/-- A well-formed write request fixture. -/
def fW : WriteFields :=
  { name := "Example", certificate := "PEM", displayName := "",
    policies := ["dev"], ttl := 0, maxTTL := 0 }

/-- C1: with the earlier validation steps passed and at least one parsed
certificate, the write fails with the key-usage error exactly when the
first parsed certificate is not a CA, has a non-empty extended-key-usage
list, and that list contains neither `ClientAuth` nor `Any`; in every
other case (a CA certificate, an empty usage list, or a list containing
`ClientAuth` or `Any`) the write succeeds. -/
theorem write_keyUsage_policy (sys : SystemView) (pem : String → List ParsedCert)
    (st : Storage) (f : WriteFields) (c : ParsedCert) (cs : List ParsedCert)
    (httl : 0 ≤ f.ttl) (hmax : 0 ≤ f.maxTTL)
    (hrel : f.maxTTL = 0 ∨ f.ttl ≤ f.maxTTL)
    (hp : pem f.certificate = c :: cs) :
    (respErr (pathCertWrite sys pem st f).1 =
        some "non-CA certificates should have TLS client authentication set as an extended key usage"
      ↔ c.IsCA = false ∧ c.ExtKeyUsage ≠ [] ∧
          ∀ u ∈ c.ExtKeyUsage, u ≠ ExtKeyUsage.clientAuth ∧ u ≠ ExtKeyUsage.any) ∧
    ((c.IsCA = true ∨ c.ExtKeyUsage = [] ∨
        ∃ u ∈ c.ExtKeyUsage, u = ExtKeyUsage.clientAuth ∨ u = ExtKeyUsage.any) →
      respErr (pathCertWrite sys pem st f).1 = none) := by
  have hfe : firstWriteError pem f =
      if keyUsageBad c then
        some "non-CA certificates should have TLS client authentication set as an extended key usage"
      else none := by
    unfold firstWriteError
    rw [if_neg (by omega), if_neg (by omega), if_neg (by omega), hp]
  constructor
  · rw [respErr_write, hfe]
    by_cases hk : keyUsageBad c = true
    · rw [if_pos hk]
      exact iff_of_true rfl ((keyUsageBad_iff c).mp hk)
    · rw [if_neg hk]
      exact iff_of_false (by simp) fun hr => hk ((keyUsageBad_iff c).mpr hr)
  · intro hexempt
    rw [respErr_write, hfe]
    have hk : ¬ keyUsageBad c = true := by
      intro hkk
      obtain ⟨hA, hB, hC⟩ := (keyUsageBad_iff c).mp hkk
      rcases hexempt with h | h | ⟨u, hu, hcu⟩
      · rw [h] at hA; cases hA
      · exact hB h
      · rcases hcu with h | h
        · exact (hC u hu).1 h
        · exact (hC u hu).2 h
    rw [if_neg hk]

/-- C1 witness: a non-CA server-auth-only certificate in an otherwise
valid write hits the key-usage rule. -/
theorem write_keyUsage_policy_witness :
    0 ≤ fW.ttl ∧ 0 ≤ fW.maxTTL ∧ (fW.maxTTL = 0 ∨ fW.ttl ≤ fW.maxTTL) ∧
    pemServerOnly fW.certificate = certServerOnly :: [] ∧
    ((respErr (pathCertWrite sysW pemServerOnly stEmpty fW).1 =
        some "non-CA certificates should have TLS client authentication set as an extended key usage"
      ↔ certServerOnly.IsCA = false ∧ certServerOnly.ExtKeyUsage ≠ [] ∧
          ∀ u ∈ certServerOnly.ExtKeyUsage,
            u ≠ ExtKeyUsage.clientAuth ∧ u ≠ ExtKeyUsage.any) ∧
    ((certServerOnly.IsCA = true ∨ certServerOnly.ExtKeyUsage = [] ∨
        ∃ u ∈ certServerOnly.ExtKeyUsage,
          u = ExtKeyUsage.clientAuth ∨ u = ExtKeyUsage.any) →
      respErr (pathCertWrite sysW pemServerOnly stEmpty fW).1 = none)) :=
  ⟨by decide, by decide, by decide, rfl,
    write_keyUsage_policy sysW pemServerOnly stEmpty fW certServerOnly []
      (by decide) (by decide) (by decide) rfl⟩

/-- C2: a negative `ttl` or a negative `max_ttl` is rejected with the
matching error message (the `ttl` check runs first) and the storage is
left untouched. -/
theorem write_negative_ttl_rejected (sys : SystemView)
    (pem : String → List ParsedCert) (st : Storage) (f : WriteFields)
    (h : f.ttl < 0 ∨ f.maxTTL < 0) :
    (respErr (pathCertWrite sys pem st f).1 = some "ttl cannot be negative" ∨
      respErr (pathCertWrite sys pem st f).1 = some "max_ttl cannot be negative") ∧
    (f.ttl < 0 → respErr (pathCertWrite sys pem st f).1 = some "ttl cannot be negative") ∧
    (0 ≤ f.ttl → f.maxTTL < 0 →
      respErr (pathCertWrite sys pem st f).1 = some "max_ttl cannot be negative") ∧
    (pathCertWrite sys pem st f).2 = st := by
  simp only [respErr_write, pathCertWrite_state]
  unfold firstWriteError
  by_cases h1 : f.ttl < 0
  · simp only [if_pos h1]
    exact ⟨Or.inl trivial, fun _ => trivial, fun h0 _ => absurd h1 (by omega), by simp⟩
  · have h2 : f.maxTTL < 0 := by tauto
    simp only [if_neg h1, if_pos h2]
    exact ⟨Or.inr trivial, fun hc => absurd hc h1, fun _ _ => trivial, by simp⟩

/-- C2 witness: `ttl = -5` is rejected without touching the storage. -/
theorem write_negative_ttl_rejected_witness :
    (({ fW with ttl := -5 } : WriteFields).ttl < 0 ∨
      ({ fW with ttl := -5 } : WriteFields).maxTTL < 0) ∧
    ((respErr (pathCertWrite sysW pemCA stEmpty { fW with ttl := -5 }).1 =
        some "ttl cannot be negative" ∨
      respErr (pathCertWrite sysW pemCA stEmpty { fW with ttl := -5 }).1 =
        some "max_ttl cannot be negative") ∧
    (({ fW with ttl := -5 } : WriteFields).ttl < 0 →
      respErr (pathCertWrite sysW pemCA stEmpty { fW with ttl := -5 }).1 =
        some "ttl cannot be negative") ∧
    (0 ≤ ({ fW with ttl := -5 } : WriteFields).ttl →
      ({ fW with ttl := -5 } : WriteFields).maxTTL < 0 →
      respErr (pathCertWrite sysW pemCA stEmpty { fW with ttl := -5 }).1 =
        some "max_ttl cannot be negative") ∧
    (pathCertWrite sysW pemCA stEmpty { fW with ttl := -5 }).2 = stEmpty) :=
  ⟨by decide,
    write_negative_ttl_rejected sysW pemCA stEmpty { fW with ttl := -5 } (by decide)⟩

/-- C3 counterexample: with `maxTTL = -1` and `ttl = 0` we have
`maxTTL ≠ 0` and `ttl > maxTTL`, yet the write fails with
`"max_ttl cannot be negative"`, not with the claimed
`"ttl should be shorter than max_ttl"`. -/
theorem write_ttl_gt_maxTTL_counterexample :
    ({ fW with maxTTL := -1 } : WriteFields).maxTTL ≠ 0 ∧
    ({ fW with maxTTL := -1 } : WriteFields).ttl >
      ({ fW with maxTTL := -1 } : WriteFields).maxTTL ∧
    respErr (pathCertWrite sysW pemCA stEmpty { fW with maxTTL := -1 }).1 ≠
      some "ttl should be shorter than max_ttl" ∧
    respErr (pathCertWrite sysW pemCA stEmpty { fW with maxTTL := -1 }).1 =
      some "max_ttl cannot be negative" := by
  decide

/-- C3 (amended): for every write with `maxTTL > 0` and `ttl > maxTTL`,
the write fails with `"ttl should be shorter than max_ttl"` for all
values of the system ceilings, and the storage is untouched. -/
theorem write_ttl_gt_maxTTL_rejected (sys : SystemView)
    (pem : String → List ParsedCert) (st : Storage) (f : WriteFields)
    (hmax : 0 < f.maxTTL) (h : f.ttl > f.maxTTL) :
    respErr (pathCertWrite sys pem st f).1 =
      some "ttl should be shorter than max_ttl" ∧
    (pathCertWrite sys pem st f).2 = st := by
  simp only [respErr_write, pathCertWrite_state]
  unfold firstWriteError
  rw [if_neg (by omega), if_neg (by omega), if_pos ⟨by omega, h⟩]
  simp

/-- C3 witness: `ttl = 5`, `maxTTL = 1` is rejected with the
ttl-versus-max_ttl message. -/
theorem write_ttl_gt_maxTTL_rejected_witness :
    0 < ({ fW with ttl := 5, maxTTL := 1 } : WriteFields).maxTTL ∧
    ({ fW with ttl := 5, maxTTL := 1 } : WriteFields).ttl >
      ({ fW with ttl := 5, maxTTL := 1 } : WriteFields).maxTTL ∧
    (respErr (pathCertWrite sysW pemCA stEmpty { fW with ttl := 5, maxTTL := 1 }).1 =
        some "ttl should be shorter than max_ttl" ∧
      (pathCertWrite sysW pemCA stEmpty { fW with ttl := 5, maxTTL := 1 }).2 = stEmpty) :=
  ⟨by decide, by decide,
    write_ttl_gt_maxTTL_rejected sysW pemCA stEmpty
      { fW with ttl := 5, maxTTL := 1 } (by decide) (by decide)⟩

/-- C4 counterexample: a certificate that parses to no records inside a
request whose `ttl` is negative fails with `"ttl cannot be negative"`,
not with the claimed `"failed to parse certificate"`. -/
theorem write_unparseable_cert_counterexample :
    pemNone ({ fW with ttl := -1 } : WriteFields).certificate = [] ∧
    respErr (pathCertWrite sysW pemNone stEmpty { fW with ttl := -1 }).1 ≠
      some "failed to parse certificate" ∧
    respErr (pathCertWrite sysW pemNone stEmpty { fW with ttl := -1 }).1 =
      some "ttl cannot be negative" := by
  decide

/-- C4 (amended): when the TTL validations pass (`ttl ≥ 0`, `maxTTL ≥ 0`,
and `maxTTL = 0` or `ttl ≤ maxTTL`) and the PEM parse yields no records,
the write fails with `"failed to parse certificate"` and nothing is
stored. -/
theorem write_unparseable_cert_rejected (sys : SystemView)
    (pem : String → List ParsedCert) (st : Storage) (f : WriteFields)
    (httl : 0 ≤ f.ttl) (hmax : 0 ≤ f.maxTTL)
    (hrel : f.maxTTL = 0 ∨ f.ttl ≤ f.maxTTL)
    (hp : pem f.certificate = []) :
    respErr (pathCertWrite sys pem st f).1 = some "failed to parse certificate" ∧
    (pathCertWrite sys pem st f).2 = st := by
  simp only [respErr_write, pathCertWrite_state]
  unfold firstWriteError
  rw [if_neg (by omega), if_neg (by omega), if_neg (by omega), hp]
  simp

/-- C4 witness: an otherwise valid write whose certificate decodes to no
records is rejected with the parse-failure message. -/
theorem write_unparseable_cert_rejected_witness :
    0 ≤ fW.ttl ∧ 0 ≤ fW.maxTTL ∧ (fW.maxTTL = 0 ∨ fW.ttl ≤ fW.maxTTL) ∧
    pemNone fW.certificate = [] ∧
    (respErr (pathCertWrite sysW pemNone stEmpty fW).1 =
        some "failed to parse certificate" ∧
      (pathCertWrite sysW pemNone stEmpty fW).2 = stEmpty) :=
  ⟨by decide, by decide, by decide, rfl,
    write_unparseable_cert_rejected sysW pemNone stEmpty fW
      (by decide) (by decide) (by decide) rfl⟩

/-- C5: an otherwise-valid write whose `ttl` exceeds the system default
TTL succeeds — the entry is persisted — and the returned response is a
non-error response carrying the warning string built from the requested
`ttl` and the system default. -/
theorem write_ttl_exceeds_default_warns (sys : SystemView)
    (pem : String → List ParsedCert) (st : Storage) (f : WriteFields)
    (hok : firstWriteError pem f = none) (hgt : f.ttl > sys.DefaultLeaseTTL) :
    ∃ r, (pathCertWrite sys pem st f).1 = some r ∧ r.errMsg = none ∧
      ttlWarning f.ttl sys.DefaultLeaseTTL ∈ r.warnings ∧
      (pathCertWrite sys pem st f).2 =
        putStorage st ("cert/" ++ stringsToLower f.name) (storedEntry f) := by
  have hne : warningsOf sys f ≠ [] := by
    unfold warningsOf
    rw [if_pos hgt]
    simp
  rw [pathCertWrite_of_ok sys pem st f hok, if_neg hne]
  refine ⟨_, rfl, rfl, ?_, rfl⟩
  unfold warningsOf
  rw [if_pos hgt]
  simp

/-- C5 witness: `ttl = 150` against a system default of `100` stores the
entry and returns the warning. -/
theorem write_ttl_exceeds_default_warns_witness :
    firstWriteError pemCA { fW with ttl := 150 } = none ∧
    ({ fW with ttl := 150 } : WriteFields).ttl > sysW.DefaultLeaseTTL ∧
    (∃ r, (pathCertWrite sysW pemCA stEmpty { fW with ttl := 150 }).1 = some r ∧
      r.errMsg = none ∧
      ttlWarning ({ fW with ttl := 150 } : WriteFields).ttl sysW.DefaultLeaseTTL ∈
        r.warnings ∧
      (pathCertWrite sysW pemCA stEmpty { fW with ttl := 150 }).2 =
        putStorage stEmpty
          ("cert/" ++ stringsToLower ({ fW with ttl := 150 } : WriteFields).name)
          (storedEntry { fW with ttl := 150 })) :=
  ⟨by decide, by decide,
    write_ttl_exceeds_default_warns sysW pemCA stEmpty { fW with ttl := 150 }
      (by decide) (by decide)⟩

/-- C6: after a successful write, reading back under any spelling whose
lowercase form matches the written name returns the stored entry (so
`Read("example")` and `Read("EXAMPLE")` agree after `Write("Example")`),
and deleting under such a spelling removes the entry stored under the
lowercased key. -/
theorem write_read_case_insensitive (sys : SystemView)
    (pem : String → List ParsedCert) (st : Storage) (f : WriteFields)
    (n₁ n₂ : String) (hok : firstWriteError pem f = none)
    (h1 : stringsToLower n₁ = stringsToLower f.name)
    (h2 : stringsToLower n₂ = stringsToLower f.name) :
    pathCertRead (pathCertWrite sys pem st f).2 n₁ =
      some { certificate := (storedEntry f).Certificate,
             display_name := (storedEntry f).DisplayName,
             policies := (storedEntry f).Policies,
             ttl := (storedEntry f).TTL,
             max_ttl := (storedEntry f).MaxTTL } ∧
    pathCertRead (pathCertWrite sys pem st f).2 n₂ =
      pathCertRead (pathCertWrite sys pem st f).2 n₁ ∧
    (pathCertDelete (pathCertWrite sys pem st f).2 n₁).2
      ("cert/" ++ stringsToLower f.name) = none := by
  have hst : (pathCertWrite sys pem st f).2 =
      putStorage st ("cert/" ++ stringsToLower f.name) (storedEntry f) := by
    rw [pathCertWrite_state, if_pos hok]
  have key1 : stringsToLower (stringsToLower n₁) = stringsToLower f.name := by
    rw [stringsToLower_idem, h1]
  have key2 : stringsToLower (stringsToLower n₂) = stringsToLower f.name := by
    rw [stringsToLower_idem, h2]
  refine ⟨?_, ?_, ?_⟩
  · rw [hst]
    unfold pathCertRead Cert getStorage
    rw [key1, putStorage_get_same]
  · rw [hst]
    unfold pathCertRead Cert getStorage
    rw [key1, key2]
  · rw [hst]
    unfold pathCertDelete deleteStorage
    simp [h1]

/-- C6 witness: write `"Example"`, then read `"example"` and
`"EXAMPLE"`. -/
theorem write_read_case_insensitive_witness :
    firstWriteError pemCA fW = none ∧
    stringsToLower "example" = stringsToLower fW.name ∧
    stringsToLower "EXAMPLE" = stringsToLower fW.name ∧
    (pathCertRead (pathCertWrite sysW pemCA stEmpty fW).2 "example" =
      some { certificate := (storedEntry fW).Certificate,
             display_name := (storedEntry fW).DisplayName,
             policies := (storedEntry fW).Policies,
             ttl := (storedEntry fW).TTL,
             max_ttl := (storedEntry fW).MaxTTL } ∧
    pathCertRead (pathCertWrite sysW pemCA stEmpty fW).2 "EXAMPLE" =
      pathCertRead (pathCertWrite sysW pemCA stEmpty fW).2 "example" ∧
    (pathCertDelete (pathCertWrite sysW pemCA stEmpty fW).2 "example").2
      ("cert/" ++ stringsToLower fW.name) = none) :=
  ⟨by decide, by decide, by decide,
    write_read_case_insensitive sysW pemCA stEmpty fW "example" "EXAMPLE"
      (by decide) (by decide) (by decide)⟩

/-- C7: for a name with no stored entry, a read returns the empty result
with no error, and a delete succeeds as a no-op leaving the storage
unchanged. -/
theorem read_delete_absent_name (st : Storage) (n : String)
    (h : getStorage st ("cert/" ++ stringsToLower n) = none) :
    pathCertRead st n = none ∧ (pathCertDelete st n).1 = none ∧
      (pathCertDelete st n).2 = st := by
  unfold getStorage at h
  refine ⟨?_, rfl, ?_⟩
  · unfold pathCertRead Cert getStorage
    rw [stringsToLower_idem, h]
  · unfold pathCertDelete deleteStorage
    funext k'
    by_cases hk : k' = "cert/" ++ stringsToLower n
    · simp [hk, h]
    · simp [hk]

/-- C7 witness: reading and deleting the absent name `"Missing"` in the
empty storage. -/
theorem read_delete_absent_name_witness :
    getStorage stEmpty ("cert/" ++ stringsToLower "Missing") = none ∧
    (pathCertRead stEmpty "Missing" = none ∧
      (pathCertDelete stEmpty "Missing").1 = none ∧
      (pathCertDelete stEmpty "Missing").2 = stEmpty) :=
  ⟨rfl, read_delete_absent_name stEmpty "Missing" rfl⟩

/-- C8: a successful write stores an entry under the lowercased name
whose display name is the lowercased name when the supplied
`display_name` is empty, and the supplied `display_name` otherwise. -/
theorem write_displayName_default (sys : SystemView)
    (pem : String → List ParsedCert) (st : Storage) (f : WriteFields)
    (hok : firstWriteError pem f = none) :
    ∃ e, (pathCertWrite sys pem st f).2 ("cert/" ++ stringsToLower f.name) = some e ∧
      (f.displayName = "" → e.DisplayName = stringsToLower f.name) ∧
      (f.displayName ≠ "" → e.DisplayName = f.displayName) := by
  refine ⟨storedEntry f, ?_, ?_, ?_⟩
  · rw [pathCertWrite_state, if_pos hok]
    exact putStorage_get_same st _ _
  · intro hdn
    unfold storedEntry
    simp [hdn]
  · intro hdn
    unfold storedEntry
    simp [hdn]

/-- C8 witness: `fW` has an empty `display_name`, so the stored display
name is the lowercased entry name. -/
theorem write_displayName_default_witness :
    firstWriteError pemCA fW = none ∧
    (∃ e, (pathCertWrite sysW pemCA stEmpty fW).2
        ("cert/" ++ stringsToLower fW.name) = some e ∧
      (fW.displayName = "" → e.DisplayName = stringsToLower fW.name) ∧
      (fW.displayName ≠ "" → e.DisplayName = fW.displayName)) :=
  ⟨by decide, write_displayName_default sysW pemCA stEmpty fW (by decide)⟩

/-- C9: writing the same fields twice in a row leaves the same storage
state as writing them once. -/
theorem write_idempotent (sys : SystemView) (pem : String → List ParsedCert)
    (st : Storage) (f : WriteFields) :
    (pathCertWrite sys pem (pathCertWrite sys pem st f).2 f).2 =
      (pathCertWrite sys pem st f).2 := by
  simp only [pathCertWrite_state]
  by_cases hfe : firstWriteError pem f = none <;> simp [hfe, putStorage_idem]

/-- C10: whenever a write returns an error response, that response
carries no warnings — the warnings accumulated before the failing check
are discarded because the error path builds a fresh response. -/
theorem error_write_has_no_warnings (sys : SystemView)
    (pem : String → List ParsedCert) (st : Storage) (f : WriteFields)
    (r : LResponse) (m : String)
    (h : (pathCertWrite sys pem st f).1 = some r) (he : r.errMsg = some m) :
    r.warnings = [] := by
  cases hfe : firstWriteError pem f with
  | some msg =>
      rw [pathCertWrite_of_err sys pem st f msg hfe] at h
      simp only [] at h
      rw [Option.some_inj] at h
      rw [← h]
      rfl
  | none =>
      rw [pathCertWrite_of_ok sys pem st f hfe] at h
      by_cases hw : warningsOf sys f = []
      · rw [if_pos hw] at h
        cases h
      · rw [if_neg hw] at h
        simp only [] at h
        rw [Option.some_inj] at h
        rw [← h] at he
        cases he

/-- C10 witness: `ttl = 150` (above the default of 100) accumulates a
warning, then `max_ttl = -1` fails; the error response has no
warnings. -/
theorem error_write_has_no_warnings_witness :
    (pathCertWrite sysW pemCA stEmpty { fW with ttl := 150, maxTTL := -1 }).1 =
      some (errorResponse "max_ttl cannot be negative") ∧
    (errorResponse "max_ttl cannot be negative").errMsg =
      some "max_ttl cannot be negative" ∧
    (errorResponse "max_ttl cannot be negative").warnings = [] :=
  ⟨by decide, by decide,
    error_write_has_no_warnings sysW pemCA stEmpty
      { fW with ttl := 150, maxTTL := -1 }
      (errorResponse "max_ttl cannot be negative") "max_ttl cannot be negative"
      (by decide) (by decide)⟩
